import Mathlib

/-!
Verification of the tantivy-go-ffi schema/query compiler layer.

The development shallowly embeds `src/lib.rs`: the schema compiler
(`build_schema`, `resolve_search_fields`), the index lifecycle
(`create`/`open`, with the filesystem modelled as the contents of the one
index directory), the query DSL (`QueryDef`) and the query compiler
(`build_query`, `resolve_fields`), and the executor (`exec`/`search`).

The underlying index engine (tantivy) is an external collaborator, out of
scope per the spec; its query primitives appear as constructors of a
compiled-query AST (`CQuery`), and where a claim needs their semantics
(half-open integer ranges, boolean must/should/must-not combination,
top-k + offset + count collection) we give them the contract the spec
states for the engine; the engine's free-text query parser is abstracted
as a `ParseQuery` parameter with its error path preserved.  Unicode string operations (whitespace splitting,
lower-casing, the alphanumeric character class) are abstracted as a
`StrModel` parameter, since the claims do not depend on the concrete
character tables.  Rust machine integers are modelled as `Int` with the
i64 range made explicit where overflow matters; f64 values are modelled
as `Rat` (no claim depends on float rounding).
-/

namespace TantivyFFI

/-- JSON numbers as serde_json stores them: an integer payload
(PosInt/NegInt) or a floating payload; floats are abstracted as
rationals since no claim depends on rounding. -/
inductive JNum where
  | int (i : Int)
  | float (x : Rat)
deriving DecidableEq

/-- serde_json::Value. -/
inductive JValue where
  | null
  | bool (b : Bool)
  | num (n : JNum)
  | str (s : String)
  | arr (xs : List JValue)
  | obj (kvs : List (String × JValue))

/-- i64::MIN. -/
def i64Min : Int := -(2 ^ 63)

/-- i64::MAX. -/
def i64Max : Int := 2 ^ 63 - 1

/-- The value is representable as a Rust i64 (no overflow). -/
def inI64 (x : Int) : Prop := i64Min ≤ x ∧ x ≤ i64Max

instance (x : Int) : Decidable (inI64 x) := by unfold inI64; infer_instance

/-- serde_json::Value::as_i64: Some only for integer-backed numbers that
fit in i64 (float-backed numbers give None). -/
def JValue.asI64 : JValue → Option Int
  | .num (.int i) => if i64Min ≤ i ∧ i ≤ i64Max then some i else none
  | _ => none

/-- serde_json::Value::as_f64: Some for any number. -/
def JValue.asF64 : JValue → Option Rat
  | .num (.int i) => some (i : Rat)
  | .num (.float x) => some x
  | _ => none

/-- serde_json::Value::as_str. -/
def JValue.asStr : JValue → Option String
  | .str s => some s
  | _ => none

/-- FieldDef from lib.rs: name, type string, flags, tokenizer. -/
structure FieldDef where
  name : String
  field_type : String
  stored : Bool
  indexed : Bool
  fast : Bool
  tokenizer : String
deriving DecidableEq

/-- SchemaDef: ordered fields plus optional explicit search_fields. -/
structure SchemaDef where
  fields : List FieldDef
  search_fields : List String
deriving DecidableEq

/-- Engine field handles are ordinals handed out by the schema builder in
order of addition. -/
abbrev Field := Nat

/-- The field catalog: name to (engine field, FieldDef).  The source uses a
HashMap; we model it as an association list where insertion replaces any
previous binding of the same name. -/
abbrev FieldMap := List (String × Field × FieldDef)

/-- HashMap::insert (overwrite semantics). -/
def fmInsert (n : String) (v : Field × FieldDef) (fm : FieldMap) : FieldMap :=
  (n, v) :: fm.filter (fun e => e.1 ≠ n)

/-- HashMap::get. -/
def fmGet (fm : FieldMap) (n : String) : Option (Field × FieldDef) :=
  (fm.find? (fun e => e.1 = n)).map (·.2)

/-- Loop body of TantivyIndex::build_schema: each field is added to the
engine schema builder (handles assigned sequentially) and inserted into
the catalog; an unknown field_type aborts with an error. -/
def buildSchemaGo : List FieldDef → Nat → FieldMap → Except String FieldMap
  | [], _, fm => .ok fm
  | fd :: rest, i, fm =>
    if fd.field_type = "text" ∨ fd.field_type = "i64" ∨ fd.field_type = "f64" then
      buildSchemaGo rest (i + 1) (fmInsert fd.name (i, fd) fm)
    else
      .error ("unknown type: " ++ fd.field_type)

/-- TantivyIndex::build_schema. -/
def build_schema (d : SchemaDef) : Except String FieldMap :=
  buildSchemaGo d.fields 0 []

/-- TantivyIndex::resolve_search_fields: explicit list if non-empty
(unknown names silently dropped), else all indexed non-raw text fields. -/
def resolve_search_fields (d : SchemaDef) (fm : FieldMap) : List Field :=
  if d.search_fields.isEmpty = false then
    d.search_fields.filterMap (fun n => (fmGet fm n).map (·.1))
  else
    (fm.filter (fun e =>
      e.2.2.field_type = "text" ∧ e.2.2.indexed = true ∧ e.2.2.tokenizer ≠ "raw")).map (·.2.1)

/-- The session state the claims depend on: the field catalog and the
default search-field set (reader/writer are engine-side). -/
structure TIndex where
  field_map : FieldMap
  search_fields : List Field
deriving DecidableEq

/-- Contents of the index directory: None if the directory does not
exist, otherwise its files as (name, contents). -/
abbrev DirState := Option (List (String × String))

/-- TantivyIndex::create.  Mirrors the source's order of effects:
remove_dir_all (errors ignored) and create_dir_all wipe the directory
FIRST, then the schema JSON is parsed (the parser itself is external —
serde — so it is a parameter) and compiled, and only on success is the
raw schema JSON persisted as the `_schema.json` sidecar.  Returns the
resulting directory state together with the session or the error. -/
def createM (parse : String → Except String SchemaDef) (_fs : DirState)
    (schema_json : String) : DirState × Except String TIndex :=
  let wiped : DirState := some []
  match parse schema_json with
  | .error e => (wiped, .error ("schema: " ++ e))
  | .ok sd =>
    match build_schema sd with
    | .error e => (wiped, .error e)
    | .ok fm =>
      (some [("_schema.json", schema_json)],
       .ok { field_map := fm, search_fields := resolve_search_fields sd fm })

/-- TantivyIndex::open: read the `_schema.json` sidecar, parse it and
rebuild the catalog with the same construction as create. -/
def openM (parse : String → Except String SchemaDef) (fs : DirState) :
    Except String TIndex :=
  match fs with
  | none => .error "read schema: no such directory"
  | some files =>
    match files.find? (fun e => e.1 = "_schema.json") with
    | none => .error "read schema: no such file"
    | some (_, sj) =>
      match parse sj with
      | .error e => .error ("schema: " ++ e)
      | .ok sd =>
        match build_schema sd with
        | .error e => .error e
        | .ok fm =>
          .ok { field_map := fm, search_fields := resolve_search_fields sd fm }

/-- The query DSL (QueryDef in lib.rs): a tagged union, every variant
carrying limit/offset.  `pfx` is the `prefix` variant and `boolQ` the
`bool` variant, renamed only because those words are unavailable as Lean
identifiers. -/
inductive QueryDef where
  | text (query : String) (fields : List String) (limit offset : Nat)
  | fuzzy (term : String) (distance : Nat) (fields : List String) (limit offset : Nat)
  | phrase (phraseStr : String) (fields : List String) (limit offset : Nat)
  | pfx (pfxStr : String) (fields : List String) (limit offset : Nat)
  | termMatch (field : String) (value : JValue) (limit offset : Nat)
  | rangeI64 (field : String) (mn mx : Option Int) (limit offset : Nat)
  | rangeF64 (field : String) (mn mx : Option Rat) (limit offset : Nat)
  | boolQ (must should mustNot : List QueryDef) (limit offset : Nat)
  | allQ (limit offset : Nat)

/-- serde default for limit. -/
def default_limit : Nat := 100

/-- serde default for fuzzy distance. -/
def default_dist : Nat := 2

/-- QueryDef::limit — reads the limit field of whatever variant. -/
def QueryDef.limitOf : QueryDef → Nat
  | .text _ _ l _ => l
  | .fuzzy _ _ _ l _ => l
  | .phrase _ _ l _ => l
  | .pfx _ _ l _ => l
  | .termMatch _ _ l _ => l
  | .rangeI64 _ _ _ l _ => l
  | .rangeF64 _ _ _ l _ => l
  | .boolQ _ _ _ l _ => l
  | .allQ l _ => l

/-- QueryDef::offset. -/
def QueryDef.offsetOf : QueryDef → Nat
  | .text _ _ _ o => o
  | .fuzzy _ _ _ _ o => o
  | .phrase _ _ _ o => o
  | .pfx _ _ _ o => o
  | .termMatch _ _ _ o => o
  | .rangeI64 _ _ _ _ o => o
  | .rangeF64 _ _ _ _ o => o
  | .boolQ _ _ _ _ o => o
  | .allQ _ o => o

/-- tantivy::Term, typed by the field's value kind. -/
inductive QTerm where
  | text (f : Field) (s : String)
  | i64 (f : Field) (v : Int)
  | f64 (f : Field) (v : Rat)
deriving DecidableEq

/-- tantivy::query::Occur. -/
inductive Occur where
  | must
  | should
  | mustNot
deriving DecidableEq

/-- std::ops::Bound over f64 (as used by RangeQuery::new_f64_bounds). -/
inductive RBound where
  | included (v : Rat)
  | excluded (v : Rat)
  | unbounded
deriving DecidableEq

/-- Atomic engine query primitives; each constructor records exactly the
data the source passes to the engine.  `parsed` is an opaque query as
returned by the engine's free-text parser, available to engine-parser
instantiations. -/
inductive QLeaf where
  | parsed (fields : List Field) (q : String)
  | term (t : QTerm)
  | fuzzyT (t : QTerm) (dist : Nat) (transpose : Bool)
  | phraseT (terms : List QTerm)
  | regexQ (f : Field) (pat : String)
  | rangeI64Q (field : String) (lo hi : Int)
  | rangeF64Q (field : String) (lo hi : RBound)
  | allM
deriving DecidableEq

/-- Compiled query trees: engine leaves combined by BooleanQuery with
occurrence-tagged clauses. -/
inductive CQuery where
  | leaf (l : QLeaf)
  | boolean (clauses : List (Occur × CQuery))

/-- Abstraction of the Unicode string operations the source uses
(split_whitespace, str::to_lowercase, char::is_alphanumeric); the claims
hold for every choice of these. -/
structure StrModel where
  splitWs : String → List String
  lower : String → String
  alnum : Char → Bool

/-- TantivyIndex::resolve_fields: explicit names if non-empty (unknown
names silently dropped), else the session's default search fields. -/
def resolve_fields (idx : TIndex) (names : List String) : List Field :=
  if names.isEmpty then idx.search_fields
  else names.filterMap (fun n => (fmGet idx.field_map n).map (·.1))

/-- regex_escape from lib.rs: backslash-escape the regex metacharacters. -/
def regex_escape (s : String) : String :=
  String.mk (s.data.foldr
    (fun c acc =>
      if ['\\', '.', '*', '+', '?', '(', ')', '[', ']',
          Char.ofNat 0x7b, Char.ofNat 0x7d, '^', '$', '|'].contains c
      then '\\' :: c :: acc else c :: acc) [])

/-- The fuzzy tokenizer from the Fuzzy arm of build_query: split on
whitespace, lower-case each word, strip non-alphanumeric characters,
keep only tokens longer than one byte. -/
def fuzzyTokens (sm : StrModel) (term : String) : List String :=
  (((sm.splitWs term).map
      (fun w => String.mk (((sm.lower w).data.filter sm.alnum)))).filter
    (fun w => 1 < w.utf8ByteSize))

/-- Effective edit distance for one fuzzy token (the adaptive policy in
build_query): byte length ≤ 5 caps the distance at 1. -/
def effDist (dist : Nat) (w : String) : Nat :=
  if w.utf8ByteSize ≤ 5 then Nat.min 1 dist else dist

/-- The engine's free-text query parser (QueryParser::for_index followed
by parse_query), abstracted: given the default-field scope and the query
text it returns an engine query tree or a parse error.  The error path
is preserved, mirroring the source's parse_query(...).map_err(...). -/
abbrev ParseQuery := List Field → String → Except String CQuery

mutual

/-- TantivyIndex::build_query: recursively compile a QueryDef into a
compiled query tree, or fail with the error string the source produces.
The engine parser pq is a parameter; the Text arm and the single-word
Phrase fallback delegate to it, propagating its result — error
included — unchanged. -/
def build_query (pq : ParseQuery) (sm : StrModel) (idx : TIndex) : QueryDef → Except String CQuery
  | .text q fields _ _ =>
    pq (resolve_fields idx fields) q
  | .fuzzy term dist fields _ _ =>
    let f := resolve_fields idx fields
    let words := fuzzyTokens sm term
    if words.isEmpty then
      .ok (.boolean [])
    else
      .ok (.boolean (words.map (fun w =>
        (Occur.must, CQuery.boolean (f.map (fun fld =>
          (Occur.should,
           CQuery.leaf (.fuzzyT (.text fld w) (effDist dist w) true))))))))
  | .phrase p fields _ _ =>
    let f := resolve_fields idx fields
    let words := sm.splitWs p
    if words.length < 2 then
      pq f p
    else
      .ok (.boolean (f.map (fun fld =>
        (Occur.should,
         CQuery.leaf (.phraseT (words.map (fun w => QTerm.text fld (sm.lower w))))))))
  | .pfx p fields _ _ =>
    let f := resolve_fields idx fields
    let pat := regex_escape (sm.lower p) ++ ".*"
    .ok (.boolean (f.map (fun fld => (Occur.should, CQuery.leaf (.regexQ fld pat)))))
  | .termMatch field value _ _ =>
    match fmGet idx.field_map field with
    | none => .error ("unknown field: " ++ field)
    | some (fld, fd) =>
      match fd.field_type with
      | "text" => .ok (.leaf (.term (.text fld ((value.asStr).getD ""))))
      | "i64" => .ok (.leaf (.term (.i64 fld ((value.asI64).getD 0))))
      | "f64" => .ok (.leaf (.term (.f64 fld ((value.asF64).getD 0))))
      | _ => .error "unsupported term type"
  | .rangeI64 field mn mx _ _ =>
    let lo := mn.getD i64Min
    let hi := (mx.map (· + 1)).getD i64Max
    .ok (.leaf (.rangeI64Q field lo hi))
  | .rangeF64 field mn mx _ _ =>
    let lo := match mn with | some v => RBound.included v | none => RBound.unbounded
    let hi := match mx with | some v => RBound.included v | none => RBound.unbounded
    .ok (.leaf (.rangeF64Q field lo hi))
  | .boolQ must should mustNot _ _ => do
    let ms ← buildSubs pq sm idx must
    let ss ← buildSubs pq sm idx should
    let ns ← buildSubs pq sm idx mustNot
    .ok (.boolean (ms.map (fun q => (Occur.must, q)) ++
                   ss.map (fun q => (Occur.should, q)) ++
                   ns.map (fun q => (Occur.mustNot, q))))
  | .allQ _ _ => .ok (.leaf .allM)

/-- The clause-pushing loops of the Bool arm: compile each sub-query in
order, propagating the first failure. -/
def buildSubs (pq : ParseQuery) (sm : StrModel) (idx : TIndex) : List QueryDef → Except String (List CQuery)
  | [] => .ok []
  | q :: rest => do
    let c ← build_query pq sm idx q
    let cs ← buildSubs pq sm idx rest
    .ok (c :: cs)

end

/-- A clause list has at least one Must clause. -/
def hasMust (cs : List (Occur × CQuery)) : Bool :=
  cs.any (fun p => p.1 = Occur.must)

mutual

/-- Engine contract for BooleanQuery (spec §1, §4.3: must/should/must-not
combination): a document matches when every Must clause matches, no
MustNot clause matches, and — when there is no Must clause — at least one
Should clause matches.  In particular an empty BooleanQuery matches no
document.  Leaf primitives are judged by the oracle, which closes over
the document. -/
def evalQ (oracle : QLeaf → Bool) : CQuery → Bool
  | .leaf l => oracle l
  | .boolean cs =>
    evalMusts oracle cs && evalNots oracle cs && (hasMust cs || evalShoulds oracle cs)

/-- All Must clauses match. -/
def evalMusts (oracle : QLeaf → Bool) : List (Occur × CQuery) → Bool
  | [] => true
  | (Occur.must, q) :: rest => evalQ oracle q && evalMusts oracle rest
  | _ :: rest => evalMusts oracle rest

/-- No MustNot clause matches. -/
def evalNots (oracle : QLeaf → Bool) : List (Occur × CQuery) → Bool
  | [] => true
  | (Occur.mustNot, q) :: rest => !evalQ oracle q && evalNots oracle rest
  | _ :: rest => evalNots oracle rest

/-- Some Should clause matches. -/
def evalShoulds (oracle : QLeaf → Bool) : List (Occur × CQuery) → Bool
  | [] => false
  | (Occur.should, q) :: rest => evalQ oracle q || evalShoulds oracle rest
  | _ :: rest => evalShoulds oracle rest

end

/-- The query matches no document at all: false under every leaf oracle. -/
def matchesNothing (q : CQuery) : Prop := ∀ oracle : QLeaf → Bool, evalQ oracle q = false

/-- Engine contract for the i64 range primitive (spec §4.3: the
underlying primitive is half-open): a stored value v matches lo..hi iff
lo ≤ v < hi. -/
def rangeI64Matches (lo hi v : Int) : Bool := decide (lo ≤ v) && decide (v < hi)

/-- Satisfaction of an f64 lower bound. -/
def loBoundSat (b : RBound) (v : Rat) : Bool :=
  match b with
  | .included x => decide (x ≤ v)
  | .excluded x => decide (x < v)
  | .unbounded => true

/-- Satisfaction of an f64 upper bound. -/
def hiBoundSat (b : RBound) (v : Rat) : Bool :=
  match b with
  | .included x => decide (v ≤ x)
  | .excluded x => decide (v < x)
  | .unbounded => true

/-- Engine contract for the f64 range primitive with explicit bounds. -/
def rangeF64Matches (lo hi : RBound) (v : Rat) : Bool :=
  loBoundSat lo v && hiBoundSat hi v

/-- The results envelope (SearchResults in lib.rs). -/
structure SearchResults where
  results : List JValue
  count : Nat
  total_count : Nat
  limit : Nat
  offset : Nat

/-- TantivyIndex::exec, over the engine's collector contract (spec §4.4):
`allMatches` is the score-descending sequence of all documents matching
the query in the current reader snapshot; TopDocs::with_limit(limit)
.and_offset(offset) yields the page after skipping `offset`, and the
Count collector yields the overall number of matches.  `render` stands
for the stored-document fetch plus field extraction of one hit. -/
def exec (allMatches : List (Rat × Nat)) (render : Rat → Nat → JValue)
    (limit offset : Nat) : SearchResults :=
  let top := (allMatches.drop offset).take limit
  let total_count := allMatches.length
  let results := top.map (fun p => render p.1 p.2)
  { results := results, count := results.length, total_count := total_count,
    limit := limit, offset := offset }

/-- TantivyIndex::search: limit and offset are read once from the
top-level QueryDef, the query is compiled, and exec runs it.
`matchesOf` is the engine searcher: the sorted match list of a compiled
query in the current snapshot. -/
def search (pq : ParseQuery) (sm : StrModel) (idx : TIndex) (matchesOf : CQuery → List (Rat × Nat))
    (render : Rat → Nat → JValue) (qd : QueryDef) : Except String SearchResults :=
  let limit := qd.limitOf
  let offset := qd.offsetOf
  match build_query pq sm idx qd with
  | .error e => .error e
  | .ok q => .ok (exec (matchesOf q) render limit offset)

/-! Concrete fixtures used to instantiate the theorems. -/

/-- A text field with the default tokenizer. -/
def fdTitle : FieldDef :=
  { name := "title", field_type := "text", stored := true, indexed := true,
    fast := false, tokenizer := "default" }

/-- An i64 field. -/
def fdViews : FieldDef :=
  { name := "views", field_type := "i64", stored := true, indexed := true,
    fast := false, tokenizer := "default" }

/-- An f64 field. -/
def fdWeight : FieldDef :=
  { name := "weight", field_type := "f64", stored := true, indexed := true,
    fast := false, tokenizer := "default" }

/-- A raw-tokenized text field (excluded from default search fields). -/
def fdTag : FieldDef :=
  { name := "tag", field_type := "text", stored := true, indexed := true,
    fast := false, tokenizer := "raw" }

/-- A concrete schema with one field of each kind. -/
def sampleSchema : SchemaDef :=
  { fields := [fdTitle, fdViews, fdWeight, fdTag], search_fields := [] }

/-- A concrete stand-in for the external JSON parser: recognizes the one
schema document the fixtures use. -/
def sampleParse : String → Except String SchemaDef :=
  fun s => if s = "SCHEMA" then .ok sampleSchema else .error "expected value"

/-- The session obtained by creating an index from the sample schema. -/
def sampleIdx : TIndex :=
  ((createM sampleParse none "SCHEMA").2).toOption.getD ⟨[], []⟩

/-- Splitting a character list at every character satisfying p. -/
def splitChars (p : Char → Bool) : List Char → List (List Char)
  | [] => [[]]
  | c :: cs =>
    match splitChars p cs with
    | [] => [[c]]
    | g :: gs => if p c then [] :: g :: gs else (c :: g) :: gs

/-- A concrete instantiation of the abstracted Unicode string operations,
restricted to ASCII; the theorems hold for every instantiation. -/
def asciiModel : StrModel where
  splitWs := fun s =>
    ((splitChars (fun c => c.isWhitespace) s.data).map String.mk).filter (fun w => w ≠ "")
  lower := fun s => String.mk (s.data.map Char.toLower)
  alnum := Char.isAlphanum

/-- A simple engine-parser instantiation used by witnesses: it always
succeeds with an opaque parsed-query leaf recording its scope and input
(the theorems quantify over the parser, so any instantiation works). -/
def parsedEngine : ParseQuery := fun f q => .ok (.leaf (.parsed f q))

/-- C9: create removes any existing directory contents at the target path
before parsing or validating the schema JSON, so a create call that fails
(for example on malformed schema JSON) has already destroyed the
pre-existing index at that path — create is not atomic on error. -/
theorem c9_create_wipes_before_parse
    (parse : String → Except String SchemaDef) (fs : DirState) (sj e : String)
    (h : parse sj = .error e) :
    createM parse fs sj = (some [], .error ("schema: " ++ e)) ∧
    ∀ files, fs = some files → files ≠ [] → (createM parse fs sj).1 ≠ fs := by
  have h1 : createM parse fs sj = (some [], .error ("schema: " ++ e)) := by
    unfold createM
    rw [h]
  refine ⟨h1, ?_⟩
  intro files hfs hne hc
  rw [h1, hfs] at hc
  exact hne (Option.some.inj hc).symm

/-- Witness for C9: a parser that rejects its input leaves the directory
wiped, losing the pre-existing file. -/
theorem c9_create_wipes_before_parse_wit :
    createM (fun _ => .error "bad") (some [("meta.json", "olddata")]) "notjson"
      = (some [], .error ("schema: " ++ "bad")) ∧
    (createM (fun _ => .error "bad") (some [("meta.json", "olddata")]) "notjson").1
      ≠ some [("meta.json", "olddata")] := by
  have t := c9_create_wipes_before_parse (fun _ => .error "bad")
    (some [("meta.json", "olddata")]) "notjson" "bad" rfl
  exact ⟨t.1, t.2 [("meta.json", "olddata")] rfl (by decide)⟩

/-- C6: for every valid SchemaDef input, open after create reconstructs
the identical field catalog (names, types, stored/indexed/fast/tokenizer
flags) and search-field set: create persists the raw schema JSON as the
`_schema.json` sidecar and open rebuilds the session from it with the
same construction. -/
theorem c6_open_after_create
    (parse : String → Except String SchemaDef) (fs : DirState) (sj : String)
    (idx : TIndex) (h : (createM parse fs sj).2 = .ok idx) :
    (createM parse fs sj).1 = some [("_schema.json", sj)] ∧
    openM parse (createM parse fs sj).1 = .ok idx := by
  cases hp : parse sj with
  | error e => simp [createM, hp] at h
  | ok sd =>
    cases hb : build_schema sd with
    | error e => simp [createM, hp, hb] at h
    | ok fm =>
      have hfs : (createM parse fs sj).1 = some [("_schema.json", sj)] := by
        simp [createM, hp, hb]
      have hidx : idx = { field_map := fm, search_fields := resolve_search_fields sd fm } := by
        simp [createM, hp, hb] at h
        exact h.symm
      refine ⟨hfs, ?_⟩
      rw [hfs, hidx]
      simp [openM, hp, hb]

/-- Witness for C6: opening the directory produced by creating the sample
index yields the same session state. -/
theorem c6_open_after_create_wit :
    openM sampleParse (createM sampleParse none "SCHEMA").1 = .ok sampleIdx :=
  (c6_open_after_create sampleParse none "SCHEMA" sampleIdx rfl).2

/-- C1: a term_match query compiles to a single exact-value term match on
exactly one named field, the term typed by the field's declared type
(string equality for text fields when the value is a string, numeric
equality for i64/f64 when the value is a matching number); an unknown
field name aborts compilation with the QueryError the source produces,
rather than yielding a query. -/
theorem c1_term_match_typed (pq : ParseQuery) (sm : StrModel) (idx : TIndex) (field : String)
    (v : JValue) (l o : Nat) :
    (fmGet idx.field_map field = none →
      build_query pq sm idx (.termMatch field v l o)
        = .error ("unknown field: " ++ field)) ∧
    (∀ fld fd, fmGet idx.field_map field = some (fld, fd) →
      (fd.field_type = "text" → ∀ s, v = .str s →
        build_query pq sm idx (.termMatch field v l o)
          = .ok (.leaf (.term (.text fld s)))) ∧
      (fd.field_type = "i64" → ∀ n, v.asI64 = some n →
        build_query pq sm idx (.termMatch field v l o)
          = .ok (.leaf (.term (.i64 fld n)))) ∧
      (fd.field_type = "f64" → ∀ x, v.asF64 = some x →
        build_query pq sm idx (.termMatch field v l o)
          = .ok (.leaf (.term (.f64 fld x))))) := by
  refine ⟨fun h => ?_, fun fld fd h => ⟨fun ht s hs => ?_, fun hi n hn => ?_, fun hf x hx => ?_⟩⟩
  · simp [build_query, h]
  · simp [build_query, h, ht, hs, JValue.asStr]
  · simp [build_query, h, hi, hn]
  · simp [build_query, h, hf, hx]

/-- Witness for C1: on the sample index, a text-field term_match compiles
to the exact term query and an unknown field name is a compile error. -/
theorem c1_term_match_typed_wit :
    build_query parsedEngine asciiModel sampleIdx (.termMatch "title" (.str "rust") 100 0)
      = .ok (.leaf (.term (.text 0 "rust"))) ∧
    build_query parsedEngine asciiModel sampleIdx (.termMatch "views" (.num (.int 42)) 100 0)
      = .ok (.leaf (.term (.i64 1 42))) ∧
    build_query parsedEngine asciiModel sampleIdx (.termMatch "nope" (.str "x") 100 0)
      = .error ("unknown field: " ++ "nope") := by
  refine ⟨?_, ?_, ?_⟩
  · exact ((c1_term_match_typed parsedEngine asciiModel sampleIdx "title" (.str "rust") 100 0).2
      0 fdTitle rfl).1 rfl "rust" rfl
  · exact ((c1_term_match_typed parsedEngine asciiModel sampleIdx "views" (.num (.int 42)) 100 0).2
      1 fdViews rfl).2.1 rfl 42 (by decide)
  · exact (c1_term_match_typed parsedEngine asciiModel sampleIdx "nope" (.str "x") 100 0).1 rfl

/-- C2: range_i64 bounds are inclusive on both sides with either side
omittable (unbounded); min=5, max=10 compiles to the half-open engine
range 5..11 — the upper bound converted to an exclusive bound by adding
one — which matches exactly the stored integer values in [5,10],
excluding 4 and 11; range_f64 passes native inclusive bounds (or
Unbounded) straight through on both sides. -/
theorem c2_range_inclusive (pq : ParseQuery) (sm : StrModel) (idx : TIndex) (field : String)
    (l o : Nat) (mn mx : Option Int) (a b : Option Rat) :
    build_query pq sm idx (.rangeI64 field (some 5) (some 10) l o)
      = .ok (.leaf (.rangeI64Q field 5 11)) ∧
    (∀ v : Int, rangeI64Matches 5 11 v = true ↔ 5 ≤ v ∧ v ≤ 10) ∧
    rangeI64Matches 5 11 4 = false ∧
    rangeI64Matches 5 11 11 = false ∧
    build_query pq sm idx (.rangeI64 field mn mx l o)
      = .ok (.leaf (.rangeI64Q field (mn.getD i64Min) ((mx.map (· + 1)).getD i64Max))) ∧
    build_query pq sm idx (.rangeF64 field a b l o)
      = .ok (.leaf (.rangeF64Q field
          (match a with | some v => RBound.included v | none => RBound.unbounded)
          (match b with | some v => RBound.included v | none => RBound.unbounded))) ∧
    (∀ x y v : Rat,
      rangeF64Matches (RBound.included x) (RBound.included y) v = true ↔ x ≤ v ∧ v ≤ y) := by
  refine ⟨by simp [build_query], fun v => ?_, by decide, by decide, by simp [build_query],
    by simp [build_query], fun x y v => ?_⟩
  · simp [rangeI64Matches]
    omega
  · simp [rangeF64Matches, loBoundSat, hiBoundSat]

/-- C8: range_i64 computes the exclusive upper bound as max + 1 with an
unguarded i64 addition; the result stays representable exactly when
max < i64::MAX, and for max = i64::MAX the addition leaves the i64
range (overflows). -/
theorem c8_range_hi_unguarded_add (pq : ParseQuery) (sm : StrModel) (idx : TIndex) (field : String)
    (mn : Option Int) (l o : Nat) (mx : Int) :
    build_query pq sm idx (.rangeI64 field mn (some mx) l o)
      = .ok (.leaf (.rangeI64Q field (mn.getD i64Min) (mx + 1))) ∧
    (inI64 mx → mx < i64Max → inI64 (mx + 1)) ∧
    (inI64 mx → ¬ inI64 (mx + 1) → mx = i64Max) ∧
    ¬ inI64 (i64Max + 1) := by
  refine ⟨by simp [build_query], fun h hlt => ?_, fun h hn => ?_, by decide⟩
  · unfold inI64 i64Min i64Max at *
    norm_num at *
    omega
  · unfold inI64 i64Min i64Max at *
    norm_num at *
    omega

/-- Witness for C8: max = i64::MAX produces the out-of-range bound
i64::MAX + 1, while max = 5 stays in range. -/
theorem c8_range_hi_unguarded_add_wit :
    build_query parsedEngine asciiModel sampleIdx (.rangeI64 "views" none (some i64Max) 100 0)
      = .ok (.leaf (.rangeI64Q "views" i64Min (i64Max + 1))) ∧
    inI64 (5 + 1) ∧ ¬ inI64 (i64Max + 1) := by
  have t := c8_range_hi_unguarded_add parsedEngine asciiModel sampleIdx "views" none 100 0 i64Max
  have t5 := c8_range_hi_unguarded_add parsedEngine asciiModel sampleIdx "views" none 100 0 5
  exact ⟨t.1, t5.2.1 (by decide) (by decide), t.2.2.2⟩

/-- The Fuzzy arm of build_query in closed form (shared helper). -/
theorem build_query_fuzzy (pq : ParseQuery) (sm : StrModel) (idx : TIndex) (term : String)
    (dist : Nat) (fields : List String) (l o : Nat) :
    build_query pq sm idx (.fuzzy term dist fields l o)
      = .ok (if (fuzzyTokens sm term).isEmpty then .boolean []
             else .boolean ((fuzzyTokens sm term).map (fun w =>
               (Occur.must, CQuery.boolean ((resolve_fields idx fields).map (fun fld =>
                 (Occur.should,
                  CQuery.leaf (.fuzzyT (.text fld w) (effDist dist w) true)))))))) := by
  by_cases h : (fuzzyTokens sm term).isEmpty <;> simp [build_query, h]

/-- C3: each surviving fuzzy token of byte length at most 5 is matched
with effective edit distance min(1, requested), longer tokens with the
requested distance unmodified (serde default 2); token clauses are
combined with Must (AND across tokens) and field fan-out with Should
(OR across fields per token). -/
theorem c3_fuzzy_adaptive_distance (pq : ParseQuery) (sm : StrModel) (idx : TIndex) (term : String)
    (dist : Nat) (fields : List String) (l o : Nat)
    (h : fuzzyTokens sm term ≠ []) :
    build_query pq sm idx (.fuzzy term dist fields l o)
      = .ok (.boolean ((fuzzyTokens sm term).map (fun w =>
          (Occur.must, CQuery.boolean ((resolve_fields idx fields).map (fun fld =>
            (Occur.should,
             CQuery.leaf (.fuzzyT (.text fld w) (effDist dist w) true)))))))) ∧
    (∀ w : String, w.utf8ByteSize ≤ 5 → effDist dist w = Nat.min 1 dist) ∧
    (∀ w : String, 5 < w.utf8ByteSize → effDist dist w = dist) ∧
    default_dist = 2 := by
  refine ⟨?_, fun w hw => ?_, fun w hw => ?_, rfl⟩
  · rw [build_query_fuzzy]
    have hne : (fuzzyTokens sm term).isEmpty = false := by
      cases hst : fuzzyTokens sm term with
      | nil => exact absurd hst h
      | cons a as => rfl
    rw [hne]
    rfl
  · simp [effDist, hw]
  · unfold effDist
    rw [if_neg (by omega)]

/-- Witness for C3: two tokens of byte lengths 5 and 4 both get capped
distance 1 at requested distance 2, in a Must-of-Should tree over the
single default search field. -/
theorem c3_fuzzy_adaptive_distance_wit :
    fuzzyTokens asciiModel "hello wrld" = ["hello", "wrld"] ∧
    build_query parsedEngine asciiModel sampleIdx (.fuzzy "hello wrld" 2 [] 100 0)
      = .ok (.boolean
          [(Occur.must, CQuery.boolean
             [(Occur.should, CQuery.leaf (.fuzzyT (.text 0 "hello") 1 true))]),
           (Occur.must, CQuery.boolean
             [(Occur.should, CQuery.leaf (.fuzzyT (.text 0 "wrld") 1 true))])]) := by
  have t := c3_fuzzy_adaptive_distance parsedEngine asciiModel sampleIdx "hello wrld" 2 [] 100 0
    (by decide)
  exact ⟨by decide, t.1.trans rfl⟩

/-- C4: the fuzzy tokenizer lower-cases, strips non-alphanumeric
characters and discards single-character (and empty) tokens; fuzzy
compilation always succeeds — a discarded token contributes no clause —
and an empty surviving token list yields the empty boolean query, which
matches no documents. -/
theorem c4_fuzzy_tokenization_total (pq : ParseQuery) (sm : StrModel) (idx : TIndex) (term : String)
    (dist : Nat) (fields : List String) (l o : Nat) :
    fuzzyTokens sm term
      = (((sm.splitWs term).map
          (fun w => String.mk (((sm.lower w).data.filter sm.alnum)))).filter
          (fun w => 1 < w.utf8ByteSize)) ∧
    (∃ q, build_query pq sm idx (.fuzzy term dist fields l o) = .ok q) ∧
    (fuzzyTokens sm term = [] →
      build_query pq sm idx (.fuzzy term dist fields l o) = .ok (.boolean []) ∧
      matchesNothing (.boolean [])) := by
  refine ⟨rfl, ⟨_, build_query_fuzzy pq sm idx term dist fields l o⟩, fun h => ⟨?_, fun oracle => rfl⟩⟩
  rw [build_query_fuzzy, h]
  rfl

/-- Witness for C4: the term "a ! b" leaves no surviving token (every
candidate strips to at most one character), and the fuzzy query still
compiles, to a query matching no documents. -/
theorem c4_fuzzy_tokenization_total_wit :
    fuzzyTokens asciiModel "a ! b" = [] ∧
    build_query parsedEngine asciiModel sampleIdx (.fuzzy "a ! b" 2 [] 100 0) = .ok (.boolean []) ∧
    evalQ (fun _ => true) (.boolean []) = false := by
  have t := c4_fuzzy_tokenization_total parsedEngine asciiModel sampleIdx "a ! b" 2 [] 100 0
  have h : fuzzyTokens asciiModel "a ! b" = [] := by decide
  exact ⟨h, (t.2.2 h).1, (t.2.2 h).2 (fun _ => true)⟩

/-- Replacing only the limit/offset fields at the top of a QueryDef
(leaving everything else, sub-queries included, untouched). -/
def setTopLO (L O : Nat) : QueryDef → QueryDef
  | .text q f _ _ => .text q f L O
  | .fuzzy t d f _ _ => .fuzzy t d f L O
  | .phrase p f _ _ => .phrase p f L O
  | .pfx p f _ _ => .pfx p f L O
  | .termMatch f v _ _ => .termMatch f v L O
  | .rangeI64 f a b _ _ => .rangeI64 f a b L O
  | .rangeF64 f a b _ _ => .rangeF64 f a b L O
  | .boolQ m s n _ _ => .boolQ m s n L O
  | .allQ _ _ => .allQ L O

/-- build_query never consults a node's limit/offset fields. -/
theorem build_query_setTopLO (pq : ParseQuery) (sm : StrModel) (idx : TIndex) (L O : Nat) :
    ∀ q, build_query pq sm idx (setTopLO L O q) = build_query pq sm idx q := by
  intro q
  cases q <;> rfl

/-- Nor does the sub-query compilation loop. -/
theorem buildSubs_setTopLO (pq : ParseQuery) (sm : StrModel) (idx : TIndex) (L O : Nat) :
    ∀ qs, buildSubs pq sm idx (qs.map (setTopLO L O)) = buildSubs pq sm idx qs := by
  intro qs
  induction qs with
  | nil => rfl
  | cons q rest ih => simp [buildSubs, build_query_setTopLO, ih]

/-- C5: the executed limit and offset are read once from the top-level
QueryDef; limit/offset fields on the sub-clauses of a bool query are
parsed but have no effect on the compiled query or on the search
results, which carry the top-level limit/offset. -/
theorem c5_sub_limit_offset_ignored (pq : ParseQuery) (sm : StrModel) (idx : TIndex)
    (matchesOf : CQuery → List (Rat × Nat)) (render : Rat → Nat → JValue)
    (m s n : List QueryDef) (L O L2 O2 : Nat) :
    build_query pq sm idx (.boolQ (m.map (setTopLO L2 O2)) (s.map (setTopLO L2 O2))
        (n.map (setTopLO L2 O2)) L O)
      = build_query pq sm idx (.boolQ m s n L O) ∧
    search pq sm idx matchesOf render (.boolQ (m.map (setTopLO L2 O2)) (s.map (setTopLO L2 O2))
        (n.map (setTopLO L2 O2)) L O)
      = search pq sm idx matchesOf render (.boolQ m s n L O) ∧
    (∀ r, search pq sm idx matchesOf render (.boolQ m s n L O) = .ok r →
      r.limit = L ∧ r.offset = O) := by
  have hb : build_query pq sm idx (.boolQ (m.map (setTopLO L2 O2)) (s.map (setTopLO L2 O2))
      (n.map (setTopLO L2 O2)) L O) = build_query pq sm idx (.boolQ m s n L O) := by
    simp [build_query, buildSubs_setTopLO]
  refine ⟨hb, ?_, ?_⟩
  · unfold search
    rw [hb]
    rfl
  · intro r hr
    unfold search at hr
    cases hq : build_query pq sm idx (.boolQ m s n L O) with
    | error e => rw [hq] at hr; exact absurd hr (by simp)
    | ok q =>
      rw [hq] at hr
      have he := Except.ok.inj hr
      rw [← he]
      exact ⟨rfl, rfl⟩

/-- Witness for C5: changing a sub-clause limit/offset from 7/7 to 9/9
leaves the compiled query and the results identical, and the response
carries the top-level limit 2 and offset 1. -/
theorem c5_sub_limit_offset_ignored_wit :
    build_query parsedEngine asciiModel sampleIdx (.boolQ [.allQ 9 9] [] [] 2 1)
      = build_query parsedEngine asciiModel sampleIdx (.boolQ [.allQ 7 7] [] [] 2 1) ∧
    search parsedEngine asciiModel sampleIdx (fun _ => []) (fun _ _ => .null) (.boolQ [.allQ 9 9] [] [] 2 1)
      = search parsedEngine asciiModel sampleIdx (fun _ => []) (fun _ _ => .null) (.boolQ [.allQ 7 7] [] [] 2 1) ∧
    (exec [] (fun _ _ => JValue.null) 2 1).limit = 2 ∧
    (exec [] (fun _ _ => JValue.null) 2 1).offset = 1 := by
  have t := c5_sub_limit_offset_ignored parsedEngine asciiModel sampleIdx (fun _ => [])
    (fun _ _ => .null) [.allQ 7 7] [] [] 2 1 9 9
  have h3 := t.2.2 (exec [] (fun _ _ => JValue.null) 2 1) rfl
  exact ⟨t.1, t.2.1, h3.1, h3.2⟩

/-- C7: every successful search response returns at most limit results
(count ≤ limit) and reports a total_count of at least count. -/
theorem c7_count_bounds (pq : ParseQuery) (sm : StrModel) (idx : TIndex)
    (matchesOf : CQuery → List (Rat × Nat)) (render : Rat → Nat → JValue)
    (qd : QueryDef) (r : SearchResults)
    (h : search pq sm idx matchesOf render qd = .ok r) :
    r.count ≤ r.limit ∧ r.count ≤ r.total_count := by
  unfold search at h
  cases hq : build_query pq sm idx qd with
  | error e => rw [hq] at h; exact absurd h (by simp)
  | ok q =>
    rw [hq] at h
    have he := Except.ok.inj h
    rw [← he]
    constructor
    · simp [exec]
    · simp [exec]

/-- Witness for C7: an all-query over three matches with limit 2 returns
2 ≤ 2 results out of a total of 3. -/
theorem c7_count_bounds_wit :
    (exec [((1 : Rat), (0 : Nat)), (1, 1), (1, 2)] (fun _ _ => JValue.null) 2 0).count ≤
      (exec [((1 : Rat), (0 : Nat)), (1, 1), (1, 2)] (fun _ _ => JValue.null) 2 0).limit ∧
    (exec [((1 : Rat), (0 : Nat)), (1, 1), (1, 2)] (fun _ _ => JValue.null) 2 0).count ≤
      (exec [((1 : Rat), (0 : Nat)), (1, 1), (1, 2)] (fun _ _ => JValue.null) 2 0).total_count :=
  c7_count_bounds parsedEngine asciiModel sampleIdx
    (fun _ => [((1 : Rat), (0 : Nat)), (1, 1), (1, 2)]) (fun _ _ => JValue.null)
    (.allQ 2 0) _ rfl

/-- Membership in the field-name resolution filterMap (shared helper):
a field handle is produced exactly when some listed name looks it up. -/
theorem mem_lookup_filterMap (fm : FieldMap) (names : List String) (fld : Field) :
    fld ∈ names.filterMap (fun n => (fmGet fm n).map (·.1)) ↔
      ∃ n ∈ names, ∃ fd, fmGet fm n = some (fld, fd) := by
  constructor
  · intro hm
    rcases List.mem_filterMap.mp hm with ⟨n, hn, hsome⟩
    rcases Option.map_eq_some'.mp hsome with ⟨a, hget, ha⟩
    exact ⟨n, hn, a.2, by rw [hget, ← ha]⟩
  · rintro ⟨n, hn, fd, hget⟩
    exact List.mem_filterMap.mpr ⟨n, hn, by rw [hget]; rfl⟩

/-- An empty BooleanQuery matches nothing (shared helper). -/
theorem matchesNothing_boolean_nil : matchesNothing (.boolean []) := fun _ => rfl

/-- A BooleanQuery all of whose clauses are empty boolean must-clauses
matches nothing (shared helper). -/
theorem matchesNothing_must_empty {α : Type} (ws : List α) :
    matchesNothing (.boolean (ws.map (fun _ => (Occur.must, CQuery.boolean [])))) := by
  intro oracle
  cases ws with
  | nil => rfl
  | cons a as => rfl

/-- C10 (amended): names absent from the field catalog are silently
dropped during field resolution (both for a query\'s explicit fields list
and for the schema\'s explicit search_fields list) rather than causing an
error; when no listed name resolves, the query is compiled against an
empty field set: fuzzy, prefix and multi-word phrase queries then match
no documents, while text queries and single-word phrases are delegated
to the engine\'s free-text parser scoped to the empty field set, whose
outcome — a query, or a parse error — is returned unchanged as the
compilation result. -/
theorem c10_unknown_names_dropped (pq : ParseQuery) (sm : StrModel) (idx : TIndex)
    (names : List String) (d : SchemaDef) (fm : FieldMap)
    (p t : String) (dist l o : Nat) :
    (names ≠ [] →
      (∀ fld, fld ∈ resolve_fields idx names ↔
        ∃ n ∈ names, ∃ fd, fmGet idx.field_map n = some (fld, fd)) ∧
      ((∀ n ∈ names, fmGet idx.field_map n = none) → resolve_fields idx names = [])) ∧
    (d.search_fields ≠ [] →
      ∀ fld, fld ∈ resolve_search_fields d fm ↔
        ∃ n ∈ d.search_fields, ∃ fd, fmGet fm n = some (fld, fd)) ∧
    (resolve_fields idx names = [] →
      (∀ q, build_query pq sm idx (.pfx p names l o) = .ok q → matchesNothing q) ∧
      (∀ q, build_query pq sm idx (.fuzzy t dist names l o) = .ok q → matchesNothing q) ∧
      (2 ≤ (sm.splitWs p).length →
        ∀ q, build_query pq sm idx (.phrase p names l o) = .ok q → matchesNothing q) ∧
      build_query pq sm idx (.text t names l o) = pq [] t ∧
      ((sm.splitWs p).length < 2 →
        build_query pq sm idx (.phrase p names l o) = pq [] p)) := by
  refine ⟨fun hne => ?_, fun hne fld => ?_, fun hres => ⟨?_, ?_, ?_, ?_, ?_⟩⟩
  · have hie : names.isEmpty = false := by
      cases names with
      | nil => exact absurd rfl hne
      | cons a as => rfl
    have hrw : resolve_fields idx names
        = names.filterMap (fun n => (fmGet idx.field_map n).map (·.1)) := by
      simp [resolve_fields, hie]
    constructor
    · intro fld
      rw [hrw]
      exact mem_lookup_filterMap idx.field_map names fld
    · intro hall
      rw [hrw, List.filterMap_eq_nil_iff]
      intro n hn
      rw [hall n hn]
      rfl
  · have hie : d.search_fields.isEmpty = false := by
      cases hsf : d.search_fields with
      | nil => exact absurd hsf hne
      | cons a as => rfl
    have hrw : resolve_search_fields d fm
        = d.search_fields.filterMap (fun n => (fmGet fm n).map (·.1)) := by
      unfold resolve_search_fields
      rw [if_pos hie]
    rw [hrw]
    exact mem_lookup_filterMap fm d.search_fields fld
  · intro q hq
    have hb : build_query pq sm idx (.pfx p names l o) = .ok (.boolean []) := by
      simp [build_query, hres]
    rw [hb] at hq
    rw [← Except.ok.inj hq]
    exact matchesNothing_boolean_nil
  · intro q hq
    rw [build_query_fuzzy] at hq
    rw [← Except.ok.inj hq]
    cases hw : (fuzzyTokens sm t).isEmpty with
    | true =>
      rw [if_pos rfl]
      exact matchesNothing_boolean_nil
    | false =>
      rw [if_neg Bool.false_ne_true]
      simp only [hres, List.map_nil]
      exact matchesNothing_must_empty (fuzzyTokens sm t)
  · intro hw2 q hq
    have hb : build_query pq sm idx (.phrase p names l o) = .ok (.boolean []) := by
      simp [build_query, hres, Nat.not_lt.mpr hw2]
    rw [hb] at hq
    rw [← Except.ok.inj hq]
    exact matchesNothing_boolean_nil
  · have hb : build_query pq sm idx (.text t names l o)
        = pq (resolve_fields idx names) t := by
      simp [build_query]
    rw [hb, hres]
  · intro hw
    have hb : build_query pq sm idx (.phrase p names l o)
        = pq (resolve_fields idx names) p := by
      simp [build_query, hw]
    rw [hb, hres]

/-- Modelled from the spec: the engine\'s free-text parser "handles the
engine\'s native mini-syntax for operators", which includes
field-qualified terms, and with an empty default-field scope an
unqualified term has no field to attach to.  This concrete engine model
parses the one field-qualified query the counterexample uses into its
term query, and rejects unqualified input for want of a default field. -/
def miniSyntaxEngine : ParseQuery := fun _ q =>
  if q = "title:rust" then .ok (.leaf (.term (.text 0 "rust")))
  else .error "NoDefaultFieldDeclared"

/-- Counterexample for C10 as frozen: its parenthetical fails for text
queries.  With the unknown name "ghost" resolving to the empty field
set, the text query is delegated to the engine parser scoped to that
empty set; under an engine implementing the mini-syntax\'s
field-qualified terms, "title:rust" still compiles into a term query
that a document carrying "rust" in its title matches — so it does not
match no documents — while an unqualified term fails to compile at all
instead of matching nothing. -/
theorem c10_unknown_names_dropped_cex :
    resolve_fields sampleIdx ["ghost"] = [] ∧
    build_query miniSyntaxEngine asciiModel sampleIdx (.text "title:rust" ["ghost"] 100 0)
      = .ok (.leaf (.term (.text 0 "rust"))) ∧
    ¬ matchesNothing (.leaf (.term (.text 0 "rust"))) ∧
    build_query miniSyntaxEngine asciiModel sampleIdx (.text "rust" ["ghost"] 100 0)
      = .error "NoDefaultFieldDeclared" := by
  refine ⟨by decide, rfl, fun h => ?_, rfl⟩
  exact absurd (h (fun leaf => decide (leaf = QLeaf.term (.text 0 "rust")))) (by decide)

/-- Witness for amended C10: the unknown name "ghost" resolves to the
empty field set without error, a prefix query compiled against it
matches nothing, a text query returns exactly what the parser scoped to
the empty set returns, and mixed known/unknown lists keep exactly the
known fields. -/
theorem c10_unknown_names_dropped_wit :
    resolve_fields sampleIdx ["ghost"] = [] ∧
    build_query parsedEngine asciiModel sampleIdx (.pfx "ru" ["ghost"] 100 0) = .ok (.boolean []) ∧
    evalQ (fun _ => true) (.boolean []) = false ∧
    build_query parsedEngine asciiModel sampleIdx (.text "x" ["ghost"] 100 0)
      = parsedEngine [] "x" ∧
    ((0 : Field) ∈ resolve_fields sampleIdx ["ghost", "title"] ↔
      ∃ n ∈ ["ghost", "title"], ∃ fd, fmGet sampleIdx.field_map n = some (0, fd)) := by
  have t := c10_unknown_names_dropped parsedEngine asciiModel sampleIdx ["ghost"]
    sampleSchema [] "ru" "x" 2 100 0
  have t2 := c10_unknown_names_dropped parsedEngine asciiModel sampleIdx ["ghost", "title"]
    sampleSchema [] "ru" "x" 2 100 0
  have hres : resolve_fields sampleIdx ["ghost"] = [] :=
    (t.1 (by decide)).2 (by decide)
  exact ⟨hres, rfl, ((t.2.2 hres).1 (.boolean []) rfl) (fun _ => true),
    (t.2.2 hres).2.2.2.1, (t2.1 (by decide)).1 0⟩

end TantivyFFI
